import Mathlib

/-
Verification of the job-search-tool core (scripts/search_jobs.py,
scripts/models.py, scripts/scheduler.py) against its specification.

Modelling conventions, used throughout:
- A Python string is embedded as a list of Unicode code points (PyStr).
- Python floats (delays, clock readings, similarity scores) are embedded as
  rationals; wall-clock time is an explicit value threaded through the
  functions that read or sleep on it, and time.sleep advances it by exactly
  the requested amount.
- hashlib.sha256 is embedded as an executable SHA-256 over byte lists, with
  32-bit words as Nat reduced mod 2^32; .encode() is UTF-8 encoding.
- The rapidfuzz similarity primitives fuzz.ratio and fuzz.partial_ratio are
  an external library, not code of this repository; they are parameters
  (simFull, simPart) of every definition that calls them.
- DataFrames are embedded as lists of rows; a row is a record of optional
  string fields (None/NaN is none).
- The incremental deduplication in search_jobs runs entirely under one lock
  in the thread that drains completed futures, so it linearizes to a fold
  over the concatenation, in completion order, of the per-task row lists;
  dedupRows is that fold.
-/

/-- A Python string, as its list of Unicode code points. -/
abbrev PyStr := List Nat

/-- Code points of a Lean string literal, for writing concrete PyStr values. -/
def pyStr (s : String) : PyStr := s.data.map Char.toNat

/-- One code point of str.lower(): the ASCII letters and the Latin-1
uppercase block (192-222, excluding the multiplication sign 215) lower by
adding 32, exactly as Python does on these ranges; they cover every character
this program treats specially. Other code points are left unchanged. -/
def pyLowerNat (n : Nat) : Nat :=
  if 65 ≤ n ∧ n ≤ 90 then n + 32
  else if 192 ≤ n ∧ n ≤ 222 ∧ n ≠ 215 then n + 32
  else n

/-- str.lower() over a whole string. -/
def pyLowerL (s : PyStr) : PyStr := s.map pyLowerNat

/-- Python str whitespace, restricted to ASCII (the only whitespace the
program ever produces when joining fields with a space). -/
def isPySpace (n : Nat) : Bool :=
  decide (n = 32 ∨ n = 9 ∨ n = 10 ∨ n = 13 ∨ n = 11 ∨ n = 12)

/-- str.strip(): drop whitespace from both ends. -/
def pyStrip (s : PyStr) : PyStr :=
  ((s.dropWhile isPySpace).reverse.dropWhile isPySpace).reverse

/-- UTF-8 bytes of one code point (str.encode()). -/
def utf8Bytes (n : Nat) : List Nat :=
  if n < 128 then [n]
  else if n < 2048 then [192 ||| (n >>> 6), 128 ||| (n &&& 63)]
  else if n < 65536 then
    [224 ||| (n >>> 12), 128 ||| ((n >>> 6) &&& 63), 128 ||| (n &&& 63)]
  else
    [240 ||| (n >>> 18), 128 ||| ((n >>> 12) &&& 63), 128 ||| ((n >>> 6) &&& 63),
     128 ||| (n &&& 63)]

/-- UTF-8 encoding of a whole string. -/
def utf8EncodeL (s : PyStr) : List Nat :=
  s.foldr (fun c acc => utf8Bytes c ++ acc) []

/-
SHA-256 (hashlib.sha256), executable over byte lists. 32-bit words are Nat
kept below 2^32 by explicit reduction mod M32.
-/

/-- 2^32, the 32-bit word modulus. -/
def M32 : Nat := 4294967296

/-- Right rotation of a 32-bit word. -/
def rotr (n x : Nat) : Nat := ((x >>> n) ||| (x <<< (32 - n))) % M32

def smallSigma0 (x : Nat) : Nat := (rotr 7 x) ^^^ (rotr 18 x) ^^^ (x >>> 3)

def smallSigma1 (x : Nat) : Nat := (rotr 17 x) ^^^ (rotr 19 x) ^^^ (x >>> 10)

def bigSigma0 (x : Nat) : Nat := (rotr 2 x) ^^^ (rotr 13 x) ^^^ (rotr 22 x)

def bigSigma1 (x : Nat) : Nat := (rotr 6 x) ^^^ (rotr 11 x) ^^^ (rotr 25 x)

def chWord (x y z : Nat) : Nat := (x &&& y) ^^^ ((x ^^^ 4294967295) &&& z)

def majWord (x y z : Nat) : Nat := (x &&& y) ^^^ (x &&& z) ^^^ (y &&& z)

/-- The 64 SHA-256 round constants, written in decimal. -/
def shaK : List Nat :=
  [1116352408, 1899447441, 3049323471, 3921009573, 961987163, 1508970993,
   2453635748, 2870763221, 3624381080, 310598401, 607225278, 1426881987,
   1925078388, 2162078206, 2614888103, 3248222580, 3835390401, 4022224774,
   264347078, 604807628, 770255983, 1249150122, 1555081692, 1996064986,
   2554220882, 2821834349, 2952996808, 3210313671, 3336571891, 3584528711,
   113926993, 338241895, 666307205, 773529912, 1294757372, 1396182291,
   1695183700, 1986661051, 2177026350, 2456956037, 2730485921, 2820302411,
   3259730800, 3345764771, 3516065817, 3600352804, 4094571909, 275423344,
   430227734, 506948616, 659060556, 883997877, 958139571, 1322822218,
   1537002063, 1747873779, 1955562222, 2024104815, 2227730452, 2361852424,
   2428436474, 2756734187, 3204031479, 3329325298]

/-- The SHA-256 initial hash state, written in decimal. -/
def shaH0 : List Nat :=
  [1779033703, 3144134277, 1013904242, 2773480762,
   1359893119, 2600822924, 528734635, 1541459225]

/-- Big-endian 32-bit words from a byte list. -/
def toWords : List Nat → List Nat
  | a :: b :: c :: d :: rest => (((a * 256 + b) * 256 + c) * 256 + d) :: toWords rest
  | _ => []

/-- Extend the 16-word block to the 64-word message schedule (fueled). -/
def schedGo : Nat → List Nat → List Nat
  | 0, w => w
  | n + 1, w =>
    let i := w.length
    let x := (smallSigma1 (w.getD (i - 2) 0) + w.getD (i - 7) 0 +
              smallSigma0 (w.getD (i - 15) 0) + w.getD (i - 16) 0) % M32
    schedGo n (w ++ [x])

/-- One SHA-256 round on the 8-word working state; kw is the round constant
plus the schedule word. -/
def roundFn : List Nat → Nat → List Nat
  | [a, b, c, d, e, f, g, h], kw =>
    let t1 := (h + bigSigma1 e + chWord e f g + kw) % M32
    let t2 := (bigSigma0 a + majWord a b c) % M32
    [(t1 + t2) % M32, a, b, c, (d + t1) % M32, e, f, g]
  | l, _ => l

/-- Compress one 64-byte block into the hash state. -/
def compressBlock (h : List Nat) (block : List Nat) : List Nat :=
  let w := schedGo 48 (toWords block)
  let kws := (shaK.zip w).map (fun p => (p.1 + p.2) % M32)
  let v := kws.foldl roundFn h
  (h.zip v).map (fun p => (p.1 + p.2) % M32)

/-- SHA-256 padding: append 0x80, zeros to 56 mod 64, and the bit length. -/
def padMessage (msg : List Nat) : List Nat :=
  let L := msg.length
  let padLen := (119 - (L % 64)) % 64
  let bitLen := L * 8
  msg ++ [0x80] ++ List.replicate padLen 0 ++
    [(bitLen >>> 56) % 256, (bitLen >>> 48) % 256, (bitLen >>> 40) % 256, (bitLen >>> 32) % 256,
     (bitLen >>> 24) % 256, (bitLen >>> 16) % 256, (bitLen >>> 8) % 256, bitLen % 256]

/-- Split into 64-byte blocks (fueled by the list length). -/
def chunks64 : Nat → List Nat → List (List Nat)
  | 0, _ => []
  | _ + 1, [] => []
  | n + 1, l => l.take 64 :: chunks64 n (l.drop 64)

/-- SHA-256 digest bytes of a byte message. -/
def sha256bytes (msg : List Nat) : List Nat :=
  let padded := padMessage msg
  let hs := (chunks64 padded.length padded).foldl compressBlock shaH0
  hs.foldr (fun w acc => (w >>> 24) % 256 :: (w >>> 16) % 256 :: (w >>> 8) % 256 :: w % 256 :: acc) []

/-- Code point of one hex digit. -/
def hexCharCode (n : Nat) : Nat := if n < 10 then 48 + n else 87 + n

/-- Two hex digits of one byte. -/
def byteHex (b : Nat) : List Nat := [hexCharCode (b / 16), hexCharCode (b % 16)]

/-- hexdigest(): the digest bytes as a lowercase hex string. -/
def hexDigestN (bytes : List Nat) : PyStr :=
  bytes.foldr (fun b acc => byteHex (b % 256) ++ acc) []

/-
Data model: one fetched row (a pandas Series restricted to the fields the
core reads). none models an absent or null field: _get_job_text skips it via
pd.notna, and the scorer and the key builder substitute the empty string.
(A float NaN cell, which Python would stringify as the literal text nan in
the scorer and key builder, is outside the model.)
-/

structure Row where
  title : Option PyStr
  description : Option PyStr
  company : Option PyStr
  location : Option PyStr
deriving DecidableEq

/-- row.get(field, ""): the field value, or the empty string when absent. -/
def orEmpty (v : Option PyStr) : PyStr := v.getD []

/-- A row carrying only (title, company, location), as the dedup scenarios
insert them. -/
def mkRow (t c l : PyStr) : Row := ⟨some t, none, some c, some l⟩

/-- search_jobs._generate_job_key (search_jobs.py:575-578): sha256 of the
lowercased "title|company|location", first 16 hex characters. -/
def _generate_job_key (row : Row) : PyStr :=
  (hexDigestN (sha256bytes (utf8EncodeL (pyLowerL
    (orEmpty row.title ++ pyStr "|" ++ orEmpty row.company ++ pyStr "|" ++ orEmpty row.location))))).take 16

/-- models.generate_job_id (models.py:15-32): the full sha256 hex digest of
the lowercased "title|company|location". -/
def generate_job_id (title company location : PyStr) : PyStr :=
  hexDigestN (sha256bytes (utf8EncodeL (pyLowerL
    (title ++ pyStr "|" ++ company ++ pyStr "|" ++ location))))

/-- The incremental deduplication of search_jobs (search_jobs.py:531-541):
a row is kept iff its job key was not seen before; the seen set is threaded
through. Python uses a hash set; a list with membership is the same set. -/
def dedupRows : List Row → List PyStr → List Row
  | [], _ => []
  | r :: rs, seen =>
    let k := _generate_job_key r
    if seen.contains k then dedupRows rs seen
    else r :: dedupRows rs (k :: seen)

/-
FuzzyPostFilter (search_jobs.py:130-305).
-/

/-- search_jobs._normalize_text (search_jobs.py:130-162): lowercase, then the
table of accent replacements. Every replacement pattern is one character and
every replacement value is plain ASCII, so the loop of str.replace calls is
the per-character expansion below. -/
def foldAccent (n : Nat) : PyStr :=
  if n = 'ü'.toNat then pyStr "u"
  else if n = 'ö'.toNat then pyStr "o"
  else if n = 'ä'.toNat then pyStr "a"
  else if n = 'ß'.toNat then pyStr "ss"
  else if n = 'é'.toNat then pyStr "e"
  else if n = 'è'.toNat then pyStr "e"
  else if n = 'ê'.toNat then pyStr "e"
  else if n = 'à'.toNat then pyStr "a"
  else if n = 'â'.toNat then pyStr "a"
  else if n = 'î'.toNat then pyStr "i"
  else if n = 'ô'.toNat then pyStr "o"
  else if n = 'û'.toNat then pyStr "u"
  else if n = 'ç'.toNat then pyStr "c"
  else if n = 'ñ'.toNat then pyStr "n"
  else [n]

def _normalize_text (text : PyStr) : PyStr :=
  if text = [] then []
  else (text.map pyLowerNat).foldr (fun n acc => foldAccent n ++ acc) []

/-- A word character of the Python regex (the \b boundary classes): ASCII
alphanumerics and underscore; code points over 127 are treated as word
characters (Python \w is Unicode-aware; the non-ASCII characters reaching the
tokenizer after normalization are letters). -/
def isWordChar (n : Nat) : Bool :=
  decide ((48 ≤ n ∧ n ≤ 57) ∨ (65 ≤ n ∧ n ≤ 90) ∨ (97 ≤ n ∧ n ≤ 122) ∨ n = 95 ∨ 128 ≤ n)

/-- A character of the regex class [a-z0-9+#]. -/
def isClassChar (n : Nat) : Bool :=
  decide ((97 ≤ n ∧ n ≤ 122) ∨ (48 ≤ n ∧ n ≤ 57) ∨ n = 43 ∨ n = 35)

def isWordOpt : Option Nat → Bool
  | none => false
  | some n => isWordChar n

/-- A \b word boundary between two adjacent positions (none = outside the
string). -/
def atBoundary (a b : Option Nat) : Bool := isWordOpt a != isWordOpt b

/-- Backtracking for the trailing \b of re.findall(r"\b[a-z0-9+#]+\b", ...):
the largest candidate length j ≤ run.length whose end sits on a boundary;
next is the character just after the class run. -/
def backJ (run : PyStr) (next : Option Nat) : Nat → Option Nat
  | 0 => none
  | j + 1 =>
    let follow := if j + 1 < run.length then some (run.getD (j + 1) 0) else next
    if atBoundary (some (run.getD j 0)) follow then some (j + 1) else backJ run next j

/-- The scan of re.findall(r"\b[a-z0-9+#]+\b", text): at each position, if a
class character sits on a boundary, match the longest prefix of the class run
that ends on a boundary, emit it and resume after it; otherwise advance one
character. Fueled by the text length (each step consumes at least one
character). -/
def findTokens : Nat → Option Nat → PyStr → List PyStr
  | 0, _, _ => []
  | _ + 1, _, [] => []
  | fuel + 1, prev, c :: rest =>
    if isClassChar c && atBoundary prev (some c) then
      let run := (c :: rest).takeWhile isClassChar
      let tail := (c :: rest).dropWhile isClassChar
      match backJ run tail.head? run.length with
      | some j => run.take j :: findTokens fuel (run.take j).getLast? (run.drop j ++ tail)
      | none => findTokens fuel (some c) rest
    else findTokens fuel (some c) rest

/-- The stop-word list of _extract_words (search_jobs.py:175-182). -/
def stopWords : List PyStr :=
  (["a", "an", "the", "and", "or", "but", "in", "on", "at", "to", "for",
    "of", "with", "by", "from", "as", "is", "was", "are", "were", "been",
    "be", "have", "has", "had", "do", "does", "did", "will", "would",
    "could", "should", "may", "might", "must", "shall", "can", "need",
    "that", "this", "these", "those", "it", "its", "we", "you", "they",
    "i", "he", "she", "who", "what", "which", "where", "when", "why", "how"]).map pyStr

/-- search_jobs._extract_words (search_jobs.py:165-184): normalize, tokenize,
drop stop words and one-character tokens. -/
def _extract_words (text : PyStr) : List PyStr :=
  if text = [] then []
  else
    let normalized := _normalize_text text
    let words := findTokens normalized.length none normalized
    words.filter (fun w => !(stopWords.contains w) && decide (1 < w.length))

/-- The Python substring test (a in b) for strings. -/
def isSubstrL (needle : PyStr) : PyStr → Bool
  | [] => needle.isPrefixOf []
  | c :: rest => needle.isPrefixOf (c :: rest) || isSubstrL needle rest

/-- search_jobs._fuzzy_word_match (search_jobs.py:187-211). simFull and
simPart stand for rapidfuzz fuzz.ratio and fuzz.partial_ratio (an external
library); min_similarity is on the 0-100 scale. -/
def _fuzzy_word_match (simFull simPart : PyStr → PyStr → ℚ) (minSim : ℚ)
    (word text : PyStr) : Bool :=
  if isSubstrL (_normalize_text word) (_normalize_text text) then true
  else (_extract_words text).any (fun tw =>
    decide (minSim ≤ max (simFull (_normalize_text word) tw) (simPart (_normalize_text word) tw)))

/-- search_jobs._get_job_text (search_jobs.py:214-222): the non-missing,
non-empty fields joined with spaces. -/
def _get_job_text (row : Row) : PyStr :=
  List.intercalate (pyStr " ")
    (([row.title, row.description, row.company, row.location].filterMap id).filter
      (fun v => v != ([] : PyStr)))

structure PostFilterCfg where
  enabled : Bool
  min_similarity : ℚ
  check_query_terms : Bool
  check_location : Bool

/-- search_jobs.fuzzy_post_filter (search_jobs.py:225-305). The DataFrame is
a row list; a None or empty frame is the empty list. -/
def fuzzy_post_filter (simFull simPart : PyStr → PyStr → ℚ) (cfg : PostFilterCfg)
    (query location : PyStr) (rows : List Row) : List Row :=
  if cfg.enabled = false then rows
  else if rows = [] then rows
  else
    let query_terms := _extract_words query
    let location_terms :=
      if cfg.check_location && (pyLowerL location != pyStr "remote")
      then _extract_words location else []
    if query_terms = [] ∧ location_terms = [] then rows
    else rows.filter (fun row =>
      let job_text := _get_job_text row
      let query_match :=
        if cfg.check_query_terms
        then query_terms.all (fun t => _fuzzy_word_match simFull simPart cfg.min_similarity t job_text)
        else true
      let location_match :=
        if location_terms = [] then true
        else location_terms.any (fun t => _fuzzy_word_match simFull simPart cfg.min_similarity t job_text)
      query_match && location_match)

/-
RelevanceScorer (search_jobs.py:308-360).
-/

structure ScoringCfg where
  weights : List (String × Int)
  keywords : List (String × List PyStr)

/-- weights.get(category, 0). -/
def lookupWeight (ws : List (String × Int)) (cat : String) : Int :=
  ((ws.find? (fun p => p.1 == cat)).map (fun p => p.2)).getD 0

/-- The searchable text of calculate_relevance_score (search_jobs.py:336-340):
all four fields (missing means empty) joined with spaces, lowercased. -/
def relevanceText (row : Row) : PyStr :=
  pyLowerL (orEmpty row.title ++ pyStr " " ++ orEmpty row.description ++ pyStr " " ++
    orEmpty row.company ++ pyStr " " ++ orEmpty row.location)

/-- search_jobs.calculate_relevance_score (search_jobs.py:308-360): for each
keyword category in configuration order, add its weight once if any of its
keywords occurs (lowercased) in the text; whitespace-only text scores 0. -/
def calculate_relevance_score (cfg : ScoringCfg) (row : Row) : Int :=
  let text := relevanceText row
  if pyStrip text = [] then 0
  else cfg.keywords.foldl (fun score p =>
    if p.2 = [] then score
    else if p.2.any (fun kw => isSubstrL (pyLowerL kw) text) then
      score + lookupWeight cfg.weights p.1
    else score) 0

/-
SearchOrchestrator retry (search_jobs.py:363-449).
-/

/-- A fetch failure: tenacity retries exactly the (ConnectionError,
TimeoutError) class; everything else is permanent. -/
inductive FetchErr where
  | connection (msg : String)
  | timeout (msg : String)
  | other (msg : String)
deriving DecidableEq

def FetchErr.isRetryable : FetchErr → Bool
  | .connection _ => true
  | .timeout _ => true
  | .other _ => false

def FetchErr.errMsg : FetchErr → String
  | .connection m => m
  | .timeout m => m
  | .other m => m

/-- The tenacity retry loop of _do_search (search_jobs.py:381-389), with the
fetch indexed by attempt number (first call is attempt 1): a retryable error
is retried while attempts remain, any other outcome is final; after the last
allowed attempt the error is re-raised (reraise=True). Returns the outcome
and the number of invocations made. The backoff sleeps do not change either,
so they are not modelled. -/
def retryGo (fetch : Nat → Except FetchErr (List Row)) :
    Nat → Nat → Except FetchErr (List Row) × Nat
  | 0, attempt =>
    match fetch attempt with
    | .ok r => (.ok r, attempt)
    | .error e => (.error e, attempt)
  | remaining + 1, attempt =>
    match fetch attempt with
    | .ok r => (.ok r, attempt)
    | .error e => if e.isRetryable then retryGo fetch remaining (attempt + 1) else (.error e, attempt)

/-- _do_search under stop_after_attempt(max_attempts): at most max_attempts
invocations (the first invocation always happens). -/
def _do_search (fetch : Nat → Except FetchErr (List Row)) (max_attempts : Nat) :
    Except FetchErr (List Row) × Nat :=
  retryGo fetch (max_attempts - 1) 1

structure RetryCfg where
  max_attempts : Nat

structure Config where
  retry : RetryCfg
  post_filter : PostFilterCfg

/-- search_jobs.search_single_query (search_jobs.py:363-449): run the fetch
with retry; on success post-filter the rows (the added bookkeeping columns
are not part of the model); any exception is caught and returned as the
error-message component of the result tuple. -/
def search_single_query (simFull simPart : PyStr → PyStr → ℚ)
    (fetch : Nat → Except FetchErr (List Row)) (cfg : Config) (query location : PyStr) :
    PyStr × PyStr × Option (List Row) × Option String :=
  match (_do_search fetch cfg.retry.max_attempts).1 with
  | .ok jobs =>
    if jobs ≠ [] then
      let filtered := fuzzy_post_filter simFull simPart cfg.post_filter query location jobs
      if filtered = [] then (query, location, none, none)
      else (query, location, some filtered, none)
    else (query, location, none, none)
  | .error e => (query, location, none, some e.errMsg)

/-
RunScheduler (scheduler.py:104-141).
-/

/-- scheduler.JobSearchScheduler._schedule_next_run (scheduler.py:104-141):
times are rationals (hours, like interval_hours); returns the next trigger
time and the number of skipped slots the code reports (intervals_passed - 1).
Python int() on the positive timedelta quotient is the floor. -/
def _schedule_next_run (interval_hours : ℚ) (run_start now : ℚ) : ℚ × ℤ :=
  let interval := interval_hours
  let next_run_time := run_start + interval
  if next_run_time ≤ now then
    let intervals_passed : ℤ := ⌊(now - run_start) / interval⌋ + 1
    (run_start + interval * intervals_passed, intervals_passed - 1)
  else (next_run_time, 0)

/-
RateLimiter (search_jobs.py:41-127).
-/

structure ThrottlingCfg where
  enabled : Bool
  default_delay : ℚ
  site_delays : List (PyStr × ℚ)
  jitter : ℚ

/-- site_delays.get(site.lower(), default_delay). -/
def siteDelay (th : ThrottlingCfg) (site : PyStr) : ℚ :=
  ((th.site_delays.find? (fun p => p.1 == pyLowerL site)).map (fun p => p.2)).getD th.default_delay

/-- The effective delay of throttled_search (search_jobs.py:90-97): the
maximum of the configured per-site delays over the configured sites, with
default_delay as the starting value. -/
def effectiveMaxDelay (th : ThrottlingCfg) (sites : List PyStr) : ℚ :=
  sites.foldl (fun d s => max d (siteDelay th s)) th.default_delay

/-- The critical section of throttled_search (search_jobs.py:86-124) with an
explicit clock: read the clock, wait out the remaining delay (jitter_sample
is the uniform draw when jitter > 0), and record the post-sleep clock as the
last-request time. Returns (clock after, recorded last-request time); when
throttling is disabled nothing waits and nothing is recorded. -/
def throttled_wait (th : ThrottlingCfg) (sites : List PyStr) (jitter_sample : ℚ)
    (clock last : ℚ) : ℚ × ℚ :=
  if th.enabled = false then (clock, last)
  else
    let max_delay := effectiveMaxDelay th sites
    let actual_delay := if 0 < th.jitter then max_delay + jitter_sample else max_delay
    let elapsed := clock - last
    let clock' := if elapsed < actual_delay then clock + (actual_delay - elapsed) else clock
    (clock', clock')

/-
Concrete values used by the scenario theorems below.
-/

/-- An arbitrary similarity function, instantiating the simFull and simPart
parameters in concrete scenarios whose outcome does not depend on them. -/
def zeroSim : PyStr → PyStr → ℚ := fun _ _ => 0

/-- Post-filter configuration: enabled, threshold 80, query-term checking
off, location checking on. -/
def cexFilterCfg : PostFilterCfg := ⟨true, 80, false, true⟩

/-- A row unrelated to the query and the location. -/
def cexFilterRow : Row := mkRow (pyStr "chef") (pyStr "acme") (pyStr "paris")

/-- Post-filter configuration with both checks on. -/
def witFilterCfg : PostFilterCfg := ⟨true, 80, true, true⟩

def witFilterRow : Row := mkRow (pyStr "python developer") (pyStr "acme") (pyStr "paris")

/-- Scoring configuration whose only category carries weight 5 and matches on
a single-space keyword. -/
def cexScoringCfg : ScoringCfg := ⟨[("c", 5)], [("c", [pyStr " "])]⟩

/-- A row whose four fields are all empty strings. -/
def cexRowEmpty : Row := ⟨some [], none, some [], some []⟩

/-- Scoring configuration with a negative weight (nothing in the repository
validates weights). -/
def cexNegCfg : ScoringCfg := ⟨[("c", -5)], [("c", [pyStr "x"])]⟩

def cexRowX : Row := ⟨some (pyStr "x"), none, none, none⟩

/-- The row with every field lowercased. -/
def lowerRow (r : Row) : Row :=
  ⟨r.title.map pyLowerL, r.description.map pyLowerL, r.company.map pyLowerL,
   r.location.map pyLowerL⟩

def witRowA : Row := mkRow (pyStr "Dev") (pyStr "A") (pyStr "B")

def witRowB : Row := mkRow (pyStr "dev") (pyStr "a") (pyStr "b")

/-- A fetch that fails with a timeout on every attempt. -/
def witFetchTransient : Nat → Except FetchErr (List Row) := fun _ => .error (.timeout "boom")

/-- Configuration with max_attempts = 3, as in the retry-exhaustion scenario. -/
def witConfig : Config := ⟨⟨3⟩, ⟨true, 80, true, true⟩⟩

/-
Helper lemmas.
-/

lemma pyLowerNat_idem (n : Nat) : pyLowerNat (pyLowerNat n) = pyLowerNat n := by
  unfold pyLowerNat
  split_ifs <;> omega

lemma pyLowerL_idem (s : PyStr) : pyLowerL (pyLowerL s) = pyLowerL s := by
  unfold pyLowerL
  rw [List.map_map]
  exact List.map_congr_left (fun n _ => pyLowerNat_idem n)

lemma pyLowerL_append (a b : PyStr) : pyLowerL (a ++ b) = pyLowerL a ++ pyLowerL b :=
  List.map_append pyLowerNat a b

lemma orEmpty_lower (v : Option PyStr) : orEmpty (v.map pyLowerL) = pyLowerL (orEmpty v) := by
  cases v <;> simp [orEmpty, pyLowerL]

lemma relevanceText_lower (r : Row) : relevanceText (lowerRow r) = relevanceText r := by
  unfold relevanceText lowerRow
  simp only [orEmpty_lower, pyLowerL_append]
  simp only [pyLowerL_idem]

lemma foldl_score_sum (text : PyStr) (ws : List (String × Int))
    (l : List (String × List PyStr)) (init : Int) :
    l.foldl (fun score p =>
      if p.2 = [] then score
      else if p.2.any (fun kw => isSubstrL (pyLowerL kw) text) then
        score + lookupWeight ws p.1
      else score) init =
    init + (l.map (fun p =>
      if p.2.any (fun kw => isSubstrL (pyLowerL kw) text) then lookupWeight ws p.1
      else 0)).sum := by
  induction l generalizing init with
  | nil => simp
  | cons p rest ih =>
    simp only [List.foldl_cons, List.map_cons, List.sum_cons, ih]
    by_cases hp : p.2 = []
    · simp [hp]
    · rw [if_neg hp]
      by_cases hm : p.2.any (fun kw => isSubstrL (pyLowerL kw) text)
      · rw [if_pos hm, if_pos hm]; ring
      · rw [if_neg hm, if_neg hm]; ring

lemma dedupRows_countP (k : PyStr) :
    ∀ (rows : List Row) (seen : List PyStr),
      (dedupRows rows seen).countP (fun r => _generate_job_key r == k) =
        if k ∈ seen then 0
        else if ∃ r ∈ rows, _generate_job_key r = k then 1 else 0 := by
  intro rows
  induction rows with
  | nil => intro seen; simp [dedupRows]
  | cons r rs ih =>
    intro seen
    by_cases hs : _generate_job_key r ∈ seen
    · by_cases hk : k ∈ seen
      · simp [dedupRows, hs, ih, hk]
      · have hrk : _generate_job_key r ≠ k := fun h => hk (h ▸ hs)
        simp [dedupRows, hs, ih, hk, hrk]
    · by_cases hk : k ∈ seen
      · have hrk : _generate_job_key r ≠ k := fun h => hs (h ▸ hk)
        have hk2 : k ∈ _generate_job_key r :: seen := List.mem_cons_of_mem _ hk
        simp [dedupRows, hs, List.countP_cons, ih, hk, hk2, hrk]
      · by_cases hrk : _generate_job_key r = k
        · have hk2 : k ∈ _generate_job_key r :: seen := by
            rw [hrk]; exact List.mem_cons_self _ _
          simp [dedupRows, hs, List.countP_cons, ih, hk, hk2, hrk]
        · have hk2 : k ∉ _generate_job_key r :: seen := by
            intro h
            rcases List.mem_cons.mp h with h | h
            · exact hrk h.symm
            · exact hk h
          simp [dedupRows, hs, List.countP_cons, ih, hk, hk2, hrk]

lemma job_key_congr (t c l t' c' l' : PyStr)
    (h1 : pyLowerL t = pyLowerL t') (h2 : pyLowerL c = pyLowerL c')
    (h3 : pyLowerL l = pyLowerL l') :
    _generate_job_key (mkRow t c l) = _generate_job_key (mkRow t' c' l') := by
  unfold _generate_job_key mkRow
  simp only [orEmpty, Option.getD_some]
  rw [pyLowerL_append, pyLowerL_append, pyLowerL_append, pyLowerL_append,
      pyLowerL_append, pyLowerL_append, pyLowerL_append, pyLowerL_append,
      h1, h2, h3]

lemma le_foldl_max (th : ThrottlingCfg) (sites : List PyStr) (a : ℚ) :
    a ≤ sites.foldl (fun d s => max d (siteDelay th s)) a := by
  induction sites generalizing a with
  | nil => exact le_refl a
  | cons s rest ih =>
    exact le_trans (le_max_left a (siteDelay th s)) (ih (max a (siteDelay th s)))

lemma retryGo_all_transient (fetch : Nat → Except FetchErr (List Row))
    (hall : ∀ i, ∃ e : FetchErr, fetch i = .error e ∧ e.isRetryable = true) :
    ∀ rem attempt, ∃ e : FetchErr,
      retryGo fetch rem attempt = (.error e, attempt + rem) := by
  intro rem
  induction rem with
  | zero =>
    intro attempt
    obtain ⟨e, he, _⟩ := hall attempt
    exact ⟨e, by simp [retryGo, he]⟩
  | succ n ih =>
    intro attempt
    obtain ⟨e, he, hr⟩ := hall attempt
    obtain ⟨e2, he2⟩ := ih (attempt + 1)
    refine ⟨e2, ?_⟩
    simp only [retryGo, he, hr, if_true, he2]
    congr 1
    omega

lemma roundFn_length (l : List Nat) (kw : Nat) : (roundFn l kw).length = l.length := by
  unfold roundFn
  split <;> simp

lemma foldl_roundFn_length (kws : List Nat) :
    ∀ l : List Nat, (kws.foldl roundFn l).length = l.length := by
  induction kws with
  | nil => intro l; rfl
  | cons kw rest ih =>
    intro l
    rw [List.foldl_cons, ih (roundFn l kw), roundFn_length]

lemma compressBlock_length (l : List Nat) (b : List Nat) (h : l.length = 8) :
    (compressBlock l b).length = 8 := by
  unfold compressBlock
  rw [List.length_map, List.length_zip, foldl_roundFn_length, h, min_self]

lemma foldl_compressBlock_length (blocks : List (List Nat)) :
    ∀ l : List Nat, l.length = 8 → (blocks.foldl compressBlock l).length = 8 := by
  induction blocks with
  | nil => intro l h; exact h
  | cons b rest ih =>
    intro l h
    rw [List.foldl_cons]
    exact ih _ (compressBlock_length l b h)

lemma foldr_words_length (hs : List Nat) :
    (hs.foldr (fun w acc => (w >>> 24) % 256 :: (w >>> 16) % 256 :: (w >>> 8) % 256 :: w % 256 :: acc) []).length =
      4 * hs.length := by
  induction hs with
  | nil => rfl
  | cons w rest ih => simp [ih]; ring

lemma sha256bytes_length (msg : List Nat) : (sha256bytes msg).length = 32 := by
  unfold sha256bytes
  rw [foldr_words_length, foldl_compressBlock_length _ shaH0 (by rfl)]

lemma hexDigestN_length (bytes : List Nat) : (hexDigestN bytes).length = 2 * bytes.length := by
  induction bytes with
  | nil => rfl
  | cons b rest ih =>
    have hsplit : hexDigestN (b :: rest) = byteHex (b % 256) ++ hexDigestN rest := rfl
    have hb : (byteHex (b % 256)).length = 2 := rfl
    rw [hsplit, List.length_append, hb, ih, List.length_cons]
    ring

lemma score_eq_category_sum (cfg : ScoringCfg) (row : Row) :
    calculate_relevance_score cfg row =
      if pyStrip (relevanceText row) = [] then 0
      else (cfg.keywords.map (fun p =>
        if p.2.any (fun kw => isSubstrL (pyLowerL kw) (relevanceText row)) then
          lookupWeight cfg.weights p.1
        else 0)).sum := by
  unfold calculate_relevance_score
  by_cases h : pyStrip (relevanceText row) = []
  · simp [h]
  · rw [if_neg h, if_neg h, foldl_score_sum, zero_add]

/-
The claims.
-/

/-- C1: in a run of search_jobs, for every key k carried by at least one
fetched row, exactly one row with key k survives the incremental
deduplication (never zero, never both); in particular two insertions of the
same (title, company, location) in any casing retain exactly one row. -/
theorem dedup_exactly_one_per_key (rows : List Row) (k : PyStr)
    (hk : ∃ r ∈ rows, _generate_job_key r = k) :
    (dedupRows rows []).countP (fun r => _generate_job_key r == k) = 1 ∧
    ∀ t c l t' c' l' : PyStr,
      pyLowerL t = pyLowerL t' → pyLowerL c = pyLowerL c' → pyLowerL l = pyLowerL l' →
      (dedupRows [mkRow t c l, mkRow t' c' l'] []).length = 1 := by
  constructor
  · rw [dedupRows_countP k rows []]
    simp [hk]
  · intro t c l t' c' l' h1 h2 h3
    have hkey := job_key_congr t c l t' c' l' h1 h2 h3
    simp [dedupRows, hkey.symm, List.contains_cons]

/-- C1 witness: two rows that agree up to casing, deduplicated to one. -/
theorem dedup_exactly_one_per_key_witness :
    (∃ r ∈ [witRowA, witRowB], _generate_job_key r = _generate_job_key witRowA) ∧
    ((dedupRows [witRowA, witRowB] []).countP
        (fun r => _generate_job_key r == _generate_job_key witRowA) = 1 ∧
      ∀ t c l t' c' l' : PyStr,
        pyLowerL t = pyLowerL t' → pyLowerL c = pyLowerL c' → pyLowerL l = pyLowerL l' →
        (dedupRows [mkRow t c l, mkRow t' c' l'] []).length = 1) :=
  ⟨⟨witRowA, List.mem_cons_self _ _, rfl⟩,
   dedup_exactly_one_per_key [witRowA, witRowB] (_generate_job_key witRowA)
     ⟨witRowA, List.mem_cons_self _ _, rfl⟩⟩

/-- C2: with max_attempts ≥ 1, a fetch that raises a transient error on every
attempt is invoked exactly max_attempts times and the task comes back as a
failed result tuple (an error message, no exception); a fetch whose first
error is non-transient is invoked exactly once and comes back the same way. -/
theorem retry_exhaustion_and_permanent_no_retry
    (simFull simPart : PyStr → PyStr → ℚ)
    (fetch : Nat → Except FetchErr (List Row)) (cfg : Config)
    (query location : PyStr)
    (hmax : 1 ≤ cfg.retry.max_attempts) :
    ((∀ i, ∃ e : FetchErr, fetch i = .error e ∧ e.isRetryable = true) →
      (_do_search fetch cfg.retry.max_attempts).2 = cfg.retry.max_attempts ∧
      ∃ msg, search_single_query simFull simPart fetch cfg query location =
        (query, location, none, some msg)) ∧
    (∀ e : FetchErr, fetch 1 = .error e → e.isRetryable = false →
      (_do_search fetch cfg.retry.max_attempts).2 = 1 ∧
      search_single_query simFull simPart fetch cfg query location =
        (query, location, none, some e.errMsg)) := by
  constructor
  · intro hall
    obtain ⟨e, he⟩ := retryGo_all_transient fetch hall (cfg.retry.max_attempts - 1) 1
    constructor
    · simp [_do_search, he]; omega
    · refine ⟨e.errMsg, ?_⟩
      simp [search_single_query, _do_search, he]
  · intro e he hnr
    have hres : (_do_search fetch cfg.retry.max_attempts).1 = .error e ∧
        (_do_search fetch cfg.retry.max_attempts).2 = 1 := by
      unfold _do_search
      cases h : cfg.retry.max_attempts - 1 with
      | zero => simp [retryGo, he]
      | succ n => simp [retryGo, he, hnr]
    refine ⟨hres.2, ?_⟩
    simp [search_single_query, hres.1]

/-- C2 witness: an always-timing-out fetch under max_attempts = 3 is invoked
exactly 3 times and the task is returned failed. -/
theorem retry_exhaustion_witness :
    (_do_search witFetchTransient witConfig.retry.max_attempts).2 =
      witConfig.retry.max_attempts ∧
    ∃ msg, search_single_query zeroSim zeroSim witFetchTransient witConfig
      (pyStr "q") (pyStr "Remote") = (pyStr "q", pyStr "Remote", none, some msg) :=
  (retry_exhaustion_and_permanent_no_retry zeroSim zeroSim witFetchTransient witConfig
      (pyStr "q") (pyStr "Remote") (by decide)).1
    (fun _ => ⟨FetchErr.timeout "boom", rfl, rfl⟩)

/-- C3: with interval I > 0, _schedule_next_run keeps the trigger at S + I
while that is in the future, and otherwise moves it to S + I * k for the
least integer k with S + I * k in the future, reporting k - 1 skipped
slots. -/
theorem scheduler_next_future_slot (S now I : ℚ) (hI : 0 < I) :
    (now < S + I → _schedule_next_run I S now = (S + I, 0)) ∧
    (S + I ≤ now → ∃ k : ℤ,
      _schedule_next_run I S now = (S + I * k, k - 1) ∧
      now < S + I * k ∧
      ∀ j : ℤ, j < k → S + I * j ≤ now) := by
  constructor
  · intro h
    simp only [_schedule_next_run]
    rw [if_neg (by linarith)]
  · intro h
    refine ⟨⌊(now - S) / I⌋ + 1, ?_, ?_, ?_⟩
    · simp only [_schedule_next_run]
      rw [if_pos h]
    · have h1 : (now - S) / I < (⌊(now - S) / I⌋ : ℚ) + 1 := Int.lt_floor_add_one _
      have h2 : now - S < ((⌊(now - S) / I⌋ : ℚ) + 1) * I := (div_lt_iff₀ hI).mp h1
      have h3 : I * ((⌊(now - S) / I⌋ : ℚ) + 1) = ((⌊(now - S) / I⌋ : ℚ) + 1) * I :=
        mul_comm _ _
      push_cast
      linarith
    · intro j hj
      have hj' : j ≤ ⌊(now - S) / I⌋ := by omega
      have h1 : (j : ℚ) ≤ (now - S) / I :=
        le_trans (by exact_mod_cast hj') (Int.floor_le _)
      have h2 : (j : ℚ) * I ≤ now - S := (le_div_iff₀ hI).mp h1
      have h3 : I * (j : ℚ) = (j : ℚ) * I := mul_comm _ _
      linarith

/-- C3 witness: a run starting at 0 that takes 90 minutes under a 1-hour
interval triggers next at hour 2 with one skipped slot. -/
theorem scheduler_next_future_slot_witness :
    ((0 : ℚ) + 1 ≤ (3 / 2 : ℚ)) ∧
    (∃ k : ℤ, _schedule_next_run 1 0 (3 / 2) = ((0 : ℚ) + 1 * (k : ℚ), k - 1) ∧
      (3 / 2 : ℚ) < 0 + 1 * (k : ℚ) ∧ ∀ j : ℤ, j < k → (0 : ℚ) + 1 * (j : ℚ) ≤ (3 / 2 : ℚ)) ∧
    _schedule_next_run 1 0 (3 / 2) = (2, 1) :=
  ⟨by norm_num,
   (scheduler_next_future_slot 0 (3 / 2) 1 (by norm_num)).2 (by norm_num),
   by norm_num [_schedule_next_run]⟩

/-- C4 counterexample: with location checking enabled, query-term checking
disabled and location "On" (not "Remote"), the location extracts no token at
all, so no extracted token matches the job text; the claimed acceptance rule
then rejects the row, yet fuzzy_post_filter keeps it. The outcome does not
depend on the similarity functions. -/
theorem post_filter_no_location_token_cex :
    fuzzy_post_filter zeroSim zeroSim cexFilterCfg (pyStr "python") (pyStr "On")
        [cexFilterRow] = [cexFilterRow] ∧
    cexFilterCfg.check_location = true ∧
    pyLowerL (pyStr "On") ≠ pyStr "remote" ∧
    ¬ ∃ t ∈ _extract_words (pyStr "On"),
      _fuzzy_word_match zeroSim zeroSim cexFilterCfg.min_similarity t
        (_get_job_text cexFilterRow) = true := by
  decide

/-- C4 (amended): when the filter is enabled, a row is kept iff every query
token matches the job text (when query-term checking is enabled) and, when
location checking is enabled, the location is not "Remote" and the location
extracts at least one token, some location token matches the job text; a
location that extracts no token imposes no condition, and with both checks
disabled the filter keeps every row. -/
theorem post_filter_keeps_iff (simFull simPart : PyStr → PyStr → ℚ)
    (cfg : PostFilterCfg) (query location : PyStr) (rows : List Row)
    (hen : cfg.enabled = true) :
    fuzzy_post_filter simFull simPart cfg query location rows =
      rows.filter (fun row =>
        (if cfg.check_query_terms then
          (_extract_words query).all (fun t =>
            _fuzzy_word_match simFull simPart cfg.min_similarity t (_get_job_text row))
         else true) &&
        (if cfg.check_location && (pyLowerL location != pyStr "remote") &&
            !(_extract_words location).isEmpty then
          (_extract_words location).any (fun t =>
            _fuzzy_word_match simFull simPart cfg.min_similarity t (_get_job_text row))
         else true)) := by
  have hpred : ∀ row : Row,
      ((if cfg.check_query_terms then
          (_extract_words query).all (fun t =>
            _fuzzy_word_match simFull simPart cfg.min_similarity t (_get_job_text row))
        else true) &&
       (if (if cfg.check_location && (pyLowerL location != pyStr "remote")
            then _extract_words location else []) = [] then true
        else (if cfg.check_location && (pyLowerL location != pyStr "remote")
              then _extract_words location else []).any (fun t =>
          _fuzzy_word_match simFull simPart cfg.min_similarity t (_get_job_text row)))) =
      ((if cfg.check_query_terms then
          (_extract_words query).all (fun t =>
            _fuzzy_word_match simFull simPart cfg.min_similarity t (_get_job_text row))
        else true) &&
       (if cfg.check_location && (pyLowerL location != pyStr "remote") &&
            !(_extract_words location).isEmpty then
          (_extract_words location).any (fun t =>
            _fuzzy_word_match simFull simPart cfg.min_similarity t (_get_job_text row))
        else true)) := by
    intro row
    congr 1
    cases hcl : (cfg.check_location && (pyLowerL location != pyStr "remote")) with
    | false => simp [hcl]
    | true =>
      cases he : (_extract_words location).isEmpty with
      | true =>
        have he' : _extract_words location = [] := List.isEmpty_iff.mp he
        simp [hcl, he, he']
      | false =>
        have he' : _extract_words location ≠ [] := by
          intro h
          rw [h] at he
          simp at he
        simp [hcl, he, he']
  unfold fuzzy_post_filter
  rw [hen]
  rw [if_neg (by simp)]
  by_cases hrows : rows = []
  · subst hrows
    simp
  · rw [if_neg hrows]
    by_cases hearly : _extract_words query = [] ∧
        (if cfg.check_location && (pyLowerL location != pyStr "remote")
         then _extract_words location else []) = []
    · rw [if_pos hearly]
      symm
      rw [List.filter_eq_self]
      intro row _
      rw [← hpred row]
      rw [hearly.1, hearly.2]
      simp
    · rw [if_neg hearly]
      exact List.filter_congr (fun row _ => hpred row)

/-- C4 witness: the amended acceptance rule at a concrete enabled
configuration, query, location and row. -/
theorem post_filter_keeps_iff_witness :
    witFilterCfg.enabled = true ∧
    fuzzy_post_filter zeroSim zeroSim witFilterCfg (pyStr "python") (pyStr "Remote")
        [witFilterRow] =
      [witFilterRow].filter (fun row =>
        (if witFilterCfg.check_query_terms then
          (_extract_words (pyStr "python")).all (fun t =>
            _fuzzy_word_match zeroSim zeroSim witFilterCfg.min_similarity t (_get_job_text row))
         else true) &&
        (if witFilterCfg.check_location && (pyLowerL (pyStr "Remote") != pyStr "remote") &&
            !(_extract_words (pyStr "Remote")).isEmpty then
          (_extract_words (pyStr "Remote")).any (fun t =>
            _fuzzy_word_match zeroSim zeroSim witFilterCfg.min_similarity t (_get_job_text row))
         else true)) :=
  ⟨rfl, post_filter_keeps_iff zeroSim zeroSim witFilterCfg (pyStr "python") (pyStr "Remote")
    [witFilterRow] rfl⟩

/-- C5: the term-match test holds iff the normalized term is a substring of
the normalized text or some extracted token of the text reaches the
similarity threshold under the larger of the two similarity ratios; and the
diacritic folds make both matches("zürich", "Job in Zurich") and
matches("zurich", "Job in Zürich") true at threshold 80, whatever the
similarity functions. -/
theorem fuzzy_match_substring_or_token (simFull simPart : PyStr → PyStr → ℚ)
    (minSim : ℚ) (word text : PyStr) :
    (_fuzzy_word_match simFull simPart minSim word text = true ↔
      isSubstrL (_normalize_text word) (_normalize_text text) = true ∨
      ∃ tw ∈ _extract_words text,
        minSim ≤ max (simFull (_normalize_text word) tw) (simPart (_normalize_text word) tw)) ∧
    _fuzzy_word_match simFull simPart 80 (pyStr "zürich") (pyStr "Job in Zurich") = true ∧
    _fuzzy_word_match simFull simPart 80 (pyStr "zurich") (pyStr "Job in Zürich") = true := by
  refine ⟨?_, ?_, ?_⟩
  · unfold _fuzzy_word_match
    by_cases h : isSubstrL (_normalize_text word) (_normalize_text text)
    · simp [h]
    · simp [h, List.any_eq_true]
  · unfold _fuzzy_word_match
    rw [if_pos (by decide)]
  · unfold _fuzzy_word_match
    rw [if_pos (by decide)]

/-- C6 counterexample: a category whose single keyword is one space, weight
5, and a row whose four fields are empty strings: the keyword does occur in
the concatenated job text (three spaces), so the claimed rule adds weight 5,
but calculate_relevance_score returns 0 because the text is whitespace-only. -/
theorem score_whitespace_keyword_cex :
    calculate_relevance_score cexScoringCfg cexRowEmpty = 0 ∧
    (cexScoringCfg.keywords.map (fun p =>
        if p.2.any (fun kw => isSubstrL (pyLowerL kw) (relevanceText cexRowEmpty)) then
          lookupWeight cexScoringCfg.weights p.1 else 0)).sum = 5 := by
  decide

/-- C6 (amended): unless the concatenated job text is whitespace-only (then
the score is 0 regardless), the score is the sum over the keyword categories
of the category weight counted exactly once when some keyword of the category
occurs in the text, with weight 0 for a category missing from the weight
map; extra matching keywords of a category add nothing. -/
theorem score_saturating_category_sum (cfg : ScoringCfg) (row : Row) :
    calculate_relevance_score cfg row =
      if pyStrip (relevanceText row) = [] then 0
      else (cfg.keywords.map (fun p =>
        if p.2.any (fun kw => isSubstrL (pyLowerL kw) (relevanceText row)) then
          lookupWeight cfg.weights p.1
        else 0)).sum :=
  score_eq_category_sum cfg row

/-- C7 counterexample: nothing validates scoring weights, so a configuration
with a negative weight yields a negative relevance score. -/
theorem score_negative_weight_cex : calculate_relevance_score cexNegCfg cexRowX < 0 := by
  decide

/-- C7 (amended): the relevance score is non-negative whenever every
configured weight is non-negative, and it is case-insensitive: lowercasing
every field of the row leaves the score unchanged. -/
theorem score_nonneg_and_case_insensitive (cfg : ScoringCfg) (row : Row) :
    ((∀ p ∈ cfg.weights, 0 ≤ p.2) → 0 ≤ calculate_relevance_score cfg row) ∧
    calculate_relevance_score cfg (lowerRow row) = calculate_relevance_score cfg row := by
  constructor
  · intro hw
    rw [score_eq_category_sum]
    by_cases h : pyStrip (relevanceText row) = []
    · rw [if_pos h]
    · rw [if_neg h]
      apply List.sum_nonneg
      intro x hx
      simp only [List.mem_map] at hx
      obtain ⟨p, _, hpx⟩ := hx
      by_cases hm : p.2.any (fun kw => isSubstrL (pyLowerL kw) (relevanceText row))
      · rw [if_pos hm] at hpx
        subst hpx
        unfold lookupWeight
        cases hf : cfg.weights.find? (fun q => q.1 == p.1) with
        | none => simp
        | some q =>
          simpa using hw q (List.mem_of_find?_eq_some hf)
      · rw [if_neg hm] at hpx
        subst hpx
        exact le_refl 0
  · unfold calculate_relevance_score
    rw [relevanceText_lower]

/-- C8: with throttling enabled and jitter 0, the last-request timestamp
recorded by a throttled call exceeds the previously recorded one by at least
the effective delay, which is itself at least default_delay; with throttling
disabled the call waits for nothing and leaves clock and state unchanged. -/
theorem throttle_spacing_lower_bound (th : ThrottlingCfg) (sites : List PyStr)
    (jitter_sample clock last : ℚ) :
    (th.enabled = true → th.jitter = 0 →
      effectiveMaxDelay th sites ≤ (throttled_wait th sites jitter_sample clock last).2 - last ∧
      th.default_delay ≤ effectiveMaxDelay th sites) ∧
    (th.enabled = false → throttled_wait th sites jitter_sample clock last = (clock, last)) := by
  constructor
  · intro hen hj
    constructor
    · simp only [throttled_wait, hen]
      simp only [Bool.true_eq_false, if_false, hj, lt_irrefl, if_neg]
      split
      · linarith
      · linarith [not_lt.mp (by assumption : ¬ (clock - last < effectiveMaxDelay th sites))]
    · exact le_foldl_max th sites th.default_delay
  · intro hen
    simp [throttled_wait, hen]

/-- C9 counterexample: two rows whose only difference is a trailing space in
the title receive different job keys (the key builder lowercases but does not
normalize whitespace). -/
theorem job_key_whitespace_cex :
    _generate_job_key (mkRow (pyStr "dev ") (pyStr "a") (pyStr "b")) ≠
      _generate_job_key (mkRow (pyStr "dev") (pyStr "a") (pyStr "b")) := by
  decide

/-- C9 (amended): rows whose title, company and location differ only in
casing receive the same JobKey; whitespace differences change the hashed
identifier and are not collapsed. -/
theorem job_key_casing_insensitive (t c l t' c' l' : PyStr)
    (h1 : pyLowerL t = pyLowerL t') (h2 : pyLowerL c = pyLowerL c')
    (h3 : pyLowerL l = pyLowerL l') :
    _generate_job_key (mkRow t c l) = _generate_job_key (mkRow t' c' l') :=
  job_key_congr t c l t' c' l' h1 h2 h3

/-- C9 witness: a concrete casing-only pair with equal keys. -/
theorem job_key_casing_insensitive_witness :
    _generate_job_key (mkRow (pyStr "Dev") (pyStr "A") (pyStr "B")) =
      _generate_job_key (mkRow (pyStr "dev") (pyStr "a") (pyStr "b")) :=
  job_key_casing_insensitive (pyStr "Dev") (pyStr "A") (pyStr "B")
    (pyStr "dev") (pyStr "a") (pyStr "b") (by decide) (by decide) (by decide)

/-- C10: the in-run dedup key is exactly the first 16 hex characters of the
64-character persistence identity of the same fields, so rows with equal
persistence identities always receive equal dedup keys. -/
theorem job_key_is_id_prefix (row : Row) :
    _generate_job_key row =
      (generate_job_id (orEmpty row.title) (orEmpty row.company) (orEmpty row.location)).take 16 ∧
    (generate_job_id (orEmpty row.title) (orEmpty row.company) (orEmpty row.location)).length = 64 ∧
    ∀ row' : Row,
      generate_job_id (orEmpty row.title) (orEmpty row.company) (orEmpty row.location) =
        generate_job_id (orEmpty row'.title) (orEmpty row'.company) (orEmpty row'.location) →
      _generate_job_key row = _generate_job_key row' := by
  refine ⟨rfl, ?_, ?_⟩
  · unfold generate_job_id
    rw [hexDigestN_length, sha256bytes_length]
  · intro row' h
    show (generate_job_id (orEmpty row.title) (orEmpty row.company) (orEmpty row.location)).take 16 =
      (generate_job_id (orEmpty row'.title) (orEmpty row'.company) (orEmpty row'.location)).take 16
    rw [h]
